import Mathlib

set_option maxRecDepth 20000

/-!
Verification of the ZeroInbox email-corpus scripts.

Texts are modelled as lists of characters (`Str`), faithful to the Python
scripts' treatment of `str` values as character sequences.  Python's
`hashlib.sha256` / `hashlib.md5` are implemented bit-for-bit over `Nat`
with explicit reduction modulo 2^32; `.encode()` is byte-per-character,
which agrees with UTF-8 on the ASCII inputs the scripts process.
-/

abbrev Str := List Char

/-- Convert a Lean string literal to the character-list representation. -/
def chars (s : String) : Str := s.data

/-- Python `str.lower()` (ASCII). -/
def lowerStr (s : Str) : Str := s.map Char.toLower

/-- Python whitespace characters, the class matched by `\s` and stripped by `str.strip()`. -/
def isSpacePy (c : Char) : Bool :=
  c = ' ' || c = '\t' || c = '\n' || c = '\r' || c = '\x0b' || c = '\x0c'

/-- Python `str.strip()`. -/
def pyStrip (s : Str) : Str :=
  ((s.dropWhile isSpacePy).reverse.dropWhile isSpacePy).reverse

/-- Prepend a character to the first piece of a split. -/
def consHead (c : Char) : List Str → List Str
  | [] => [[c]]
  | t :: ts => (c :: t) :: ts

/-- Python `str.split(sep)` for a single-character separator. -/
def splitOnC (sep : Char) : Str → List Str
  | [] => [[]]
  | c :: s =>
    if c = sep then [] :: splitOnC sep s
    else consHead c (splitOnC sep s)

/-- Python join with a single-character separator. -/
def joinSep (sep : Char) : List Str → Str
  | [] => []
  | [x] => x
  | x :: y :: xs => x ++ sep :: joinSep sep (y :: xs)

/-- Python `s.rsplit(c, 1)` for a string known to contain `c`:
returns the part before and the part after the last occurrence of `c`. -/
def rsplitAt (c : Char) (s : Str) : Str × Str :=
  let afterRev := s.reverse.takeWhile (fun d => d ≠ c)
  (s.take (s.length - afterRev.length - 1), afterRev.reverse)

/-- Association-list lookup (Python `dict` access). -/
def alookup {κ ν : Type} [DecidableEq κ] : List (κ × ν) → κ → Option ν
  | [], _ => none
  | p :: rest, k => if p.1 = k then some p.2 else alookup rest k

/-- Association-list update (Python `dict` assignment: replace or append). -/
def aset {κ ν : Type} [DecidableEq κ] : List (κ × ν) → κ → ν → List (κ × ν)
  | [], k, v => [(k, v)]
  | p :: rest, k, v => if p.1 = k then (k, v) :: rest else p :: aset rest k v

/-- Python `dict.get(k, default)`. -/
def agetD {κ ν : Type} [DecidableEq κ] (d : List (κ × ν)) (k : κ) (v₀ : ν) : ν :=
  (alookup d k).getD v₀

/-! ### 32-bit arithmetic over Nat -/

def M32 : Nat := 4294967296

def add32 (a b : Nat) : Nat := (a + b) % M32

def xor32 (a b : Nat) : Nat := a ^^^ b

def not32 (x : Nat) : Nat := M32 - 1 - x

def rotr32 (n x : Nat) : Nat := (x >>> n) ||| ((x <<< (32 - n)) % M32)

def rotl32 (n x : Nat) : Nat := ((x <<< n) % M32) ||| (x >>> (32 - n))

/-- Bytes of a character string (ASCII, matching Python `.encode()` on ASCII text). -/
def strBytes (s : Str) : List Nat := s.map Char.toNat

/-- Big-endian bytes of a number, most significant first. -/
def beBytes : Nat → Nat → List Nat
  | 0, _ => []
  | k + 1, x => beBytes k (x >>> 8) ++ [x % 256]

/-- Little-endian bytes of a number, least significant first. -/
def leBytes : Nat → Nat → List Nat
  | 0, _ => []
  | k + 1, x => x % 256 :: leBytes k (x >>> 8)

/-- Split a list into chunks of `n` (n > 0), with a structural fuel argument. -/
def chunksOfAux {α : Type} (n : Nat) : Nat → List α → List (List α)
  | 0, _ => []
  | _, [] => []
  | fuel + 1, l => l.take n :: chunksOfAux n fuel (l.drop n)

def chunksOf {α : Type} (n : Nat) (l : List α) : List (List α) :=
  chunksOfAux n l.length l

/-- Zero-byte count for MD5/SHA padding: message plus `0x80` plus zeros ends 56 mod 64. -/
def padZeros (len : Nat) : Nat := (64 + 56 - ((len + 1) % 64)) % 64

/-- Big-endian 32-bit word from 4 bytes. -/
def word4BE (l : List Nat) : Nat := l.foldl (fun a b => a * 256 + b) 0

/-- Little-endian 32-bit word from 4 bytes. -/
def word4LE (l : List Nat) : Nat := l.reverse.foldl (fun a b => a * 256 + b) 0

/-! ### SHA-256 (FIPS 180-4), used by `hash_email` in scrub_enron_pii.py -/

def shaK : List Nat := [1116352408, 1899447441, 3049323471, 3921009573, 961987163, 1508970993, 2453635748, 2870763221, 3624381080, 310598401, 607225278, 1426881987, 1925078388, 2162078206, 2614888103, 3248222580, 3835390401, 4022224774, 264347078, 604807628, 770255983, 1249150122, 1555081692, 1996064986, 2554220882, 2821834349, 2952996808, 3210313671, 3336571891, 3584528711, 113926993, 338241895, 666307205, 773529912, 1294757372, 1396182291, 1695183700, 1986661051, 2177026350, 2456956037, 2730485921, 2820302411, 3259730800, 3345764771, 3516065817, 3600352804, 4094571909, 275423344, 430227734, 506948616, 659060556, 883997877, 958139571, 1322822218, 1537002063, 1747873779, 1955562222, 2024104815, 2227730452, 2361852424, 2428436474, 2756734187, 3204031479, 3329325298]

def shaH0 : List Nat := [1779033703, 3144134277, 1013904242, 2773480762, 1359893119, 2600822924, 528734635, 1541459225]

def bigSigma0 (x : Nat) : Nat := xor32 (rotr32 2 x) (xor32 (rotr32 13 x) (rotr32 22 x))
def bigSigma1 (x : Nat) : Nat := xor32 (rotr32 6 x) (xor32 (rotr32 11 x) (rotr32 25 x))
def smallSigma0 (x : Nat) : Nat := xor32 (rotr32 7 x) (xor32 (rotr32 18 x) (x >>> 3))
def smallSigma1 (x : Nat) : Nat := xor32 (rotr32 17 x) (xor32 (rotr32 19 x) (x >>> 10))
def chF (x y z : Nat) : Nat := xor32 (x &&& y) (not32 x &&& z)
def majF (x y z : Nat) : Nat := xor32 (x &&& y) (xor32 (x &&& z) (y &&& z))

def shaPad (m : List Nat) : List Nat :=
  m ++ 128 :: List.replicate (padZeros m.length) 0 ++ beBytes 8 (8 * m.length)

/-- Extend the 16 message words to 64 schedule words. -/
def shaExtend : Nat → List Nat → List Nat
  | 0, w => w
  | k + 1, w =>
    let i := w.length
    let wi := add32 (add32 (smallSigma1 (w.getD (i - 2) 0)) (w.getD (i - 7) 0))
                    (add32 (smallSigma0 (w.getD (i - 15) 0)) (w.getD (i - 16) 0))
    shaExtend k (w ++ [wi])

def shaRound (st : List Nat) (kw : Nat × Nat) : List Nat :=
  match st with
  | [a, b, c, d, e, f, g, h] =>
    let t1 := add32 h (add32 (bigSigma1 e) (add32 (chF e f g) (add32 kw.1 kw.2)))
    let t2 := add32 (bigSigma0 a) (majF a b c)
    [add32 t1 t2, a, b, c, add32 d t1, e, f, g]
  | _ => st

def shaCompress (h : List Nat) (block : List Nat) : List Nat :=
  let w := shaExtend 48 ((chunksOf 4 block).map word4BE)
  let st := (shaK.zip w).foldl shaRound h
  (h.zip st).map (fun p => add32 p.1 p.2)

def sha256bytes (m : List Nat) : List Nat :=
  (((chunksOf 64 (shaPad m)).foldl shaCompress shaH0).map (beBytes 4)).flatten

def hexDigits : Str := chars "0123456789abcdef"

def byteHex (b : Nat) : Str := [hexDigits.getD (b >>> 4) '0', hexDigits.getD (b % 16) '0']

def sha256hex (s : Str) : Str := ((sha256bytes (strBytes s)).map byteHex).flatten

/-! ### MD5 (RFC 1321), used by the personal scrubber and `get_email_hash` -/

def md5S : List Nat := [7, 12, 17, 22, 7, 12, 17, 22, 7, 12, 17, 22, 7, 12, 17, 22, 5, 9, 14, 20, 5, 9, 14, 20, 5, 9, 14, 20, 5, 9, 14, 20, 4, 11, 16, 23, 4, 11, 16, 23, 4, 11, 16, 23, 4, 11, 16, 23, 6, 10, 15, 21, 6, 10, 15, 21, 6, 10, 15, 21, 6, 10, 15, 21]

def md5T : List Nat := [3614090360, 3905402710, 606105819, 3250441966, 4118548399, 1200080426, 2821735955, 4249261313, 1770035416, 2336552879, 4294925233, 2304563134, 1804603682, 4254626195, 2792965006, 1236535329, 4129170786, 3225465664, 643717713, 3921069994, 3593408605, 38016083, 3634488961, 3889429448, 568446438, 3275163606, 4107603335, 1163531501, 2850285829, 4243563512, 1735328473, 2368359562, 4294588738, 2272392833, 1839030562, 4259657740, 2763975236, 1272893353, 4139469664, 3200236656, 681279174, 3936430074, 3572445317, 76029189, 3654602809, 3873151461, 530742520, 3299628645, 4096336452, 1126891415, 2878612391, 4237533241, 1700485571, 2399980690, 4293915773, 2240044497, 1873313359, 4264355552, 2734768916, 1309151649, 4149444226, 3174756917, 718787259, 3951481745]

def md5H0 : List Nat := [1732584193, 4023233417, 2562383102, 271733878]

def md5Round (m : List Nat) (st : List Nat) (i : Nat) : List Nat :=
  match st with
  | [a, b, c, d] =>
    let fg : Nat × Nat :=
      if i < 16 then ((b &&& c) ||| (not32 b &&& d), i)
      else if i < 32 then ((d &&& b) ||| (not32 d &&& c), (5 * i + 1) % 16)
      else if i < 48 then (xor32 b (xor32 c d), (3 * i + 5) % 16)
      else (xor32 c (b ||| not32 d), (7 * i) % 16)
    let f' := add32 fg.1 (add32 a (add32 (md5T.getD i 0) (m.getD fg.2 0)))
    [d, add32 b (rotl32 (md5S.getD i 0) f'), b, c]
  | _ => st

def md5Compress (st : List Nat) (block : List Nat) : List Nat :=
  let m := (chunksOf 4 block).map word4LE
  let st' := (List.range 64).foldl (md5Round m) st
  (st.zip st').map (fun p => add32 p.1 p.2)

def md5Pad (m : List Nat) : List Nat :=
  m ++ 128 :: List.replicate (padZeros m.length) 0 ++ leBytes 8 (8 * m.length)

def md5bytes (m : List Nat) : List Nat :=
  (((chunksOf 64 (md5Pad m)).foldl md5Compress md5H0).map (leBytes 4)).flatten

def md5hex (s : Str) : Str := ((md5bytes (strBytes s)).map byteHex).flatten


/-!
### A small regular-expression engine

The scripts use Python `re.sub`.  `RE` is the abstract syntax needed for the
scripts' patterns; `reMatches` enumerates, in Python's backtracking priority
order (alternation left first, quantifiers greedy), the ways a pattern can
match a prefix of the input, as pairs of (last consumed character, remaining
suffix); the last consumed character supplies the context for `\b`.
`re.sub` takes the first entry — Python's match — at the leftmost position
that has one, replaces, and resumes after the match.  The fuel argument only
bounds recursion depth; it is chosen large enough never to be exhausted on
the concrete texts evaluated below.
-/

inductive RE : Type where
  | eps : RE
  | cls : (Char → Bool) → RE
  | cat : RE → RE → RE
  | alt : RE → RE → RE
  | star : RE → RE
  | wordB : RE

/-- The class matched by `\w` (ASCII). -/
def isWordC (c : Char) : Bool := c.isAlphanum || c = '_'

def isWordO : Option Char → Bool
  | some c => isWordC c
  | none => false

/-- Word boundary test: exactly one side of the position is a word character. -/
def atBoundary (p : Option Char) (s : Str) : Bool := isWordO p != isWordO s.head?

def reMatches : Nat → RE → Option Char → Str → List (Option Char × Str)
  | 0, _, _, _ => []
  | _ + 1, RE.eps, p, s => [(p, s)]
  | _ + 1, RE.cls q, _, s =>
    match s with
    | [] => []
    | c :: s' => if q c then [(some c, s')] else []
  | fuel + 1, RE.cat a b, p, s =>
    ((reMatches fuel a p s).map (fun x => reMatches fuel b x.1 x.2)).flatten
  | fuel + 1, RE.alt a b, p, s => reMatches fuel a p s ++ reMatches fuel b p s
  | fuel + 1, RE.star r, p, s =>
    ((((reMatches fuel r p s).filter (fun x => x.2.length < s.length)).map
        (fun x => reMatches fuel (RE.star r) x.1 x.2)).flatten) ++ [(p, s)]
  | _ + 1, RE.wordB, p, s => if atBoundary p s then [(p, s)] else []

/-- Fuel for `reMatches`, ample for every concrete text in this file. -/
def FUEL : Nat := 5000

/-- Python `re.sub` with a state-threading replacement function (the personal
scrubber's replacement lambdas read and update module-level caches).  Returns
the rewritten text, the number of replacements, and the final state.  `p` is
the character just before the current position in the original text (word
boundaries are judged on the original text, as `re.sub` does).  A zero-width
match cannot arise for the scripts' patterns; it is treated as no match. -/
def pysubSt {σ : Type} : Nat → RE → (σ → Str → Str × σ) → σ → Option Char → Str → Str × Nat × σ
  | 0, _, _, st, _, s => (s, 0, st)
  | fuel + 1, r, rep, st, p, s =>
    match (reMatches FUEL r p s).head? with
    | some x =>
      if x.2.length < s.length then
        let matched := s.take (s.length - x.2.length)
        let rx := rep st matched
        let rest := pysubSt fuel r rep rx.2 x.1 x.2
        (rx.1 ++ rest.1, rest.2.1 + 1, rest.2.2)
      else
        match s with
        | [] => ([], 0, st)
        | c :: s' =>
          let rest := pysubSt fuel r rep st (some c) s'
          (c :: rest.1, rest.2.1, rest.2.2)
    | none =>
      match s with
      | [] => ([], 0, st)
      | c :: s' =>
        let rest := pysubSt fuel r rep st (some c) s'
        (c :: rest.1, rest.2.1, rest.2.2)

/-- Run `pysubSt` from the start of the text with a stateful replacement. -/
def pysubC {σ : Type} (r : RE) (rep : σ → Str → Str × σ) (s : Str) (st : σ) : Str × Nat × σ :=
  pysubSt (s.length + 1) r rep st none s

/-- Python `re.sub` with a pure replacement; returns the text and the match count. -/
def pysub (r : RE) (rep : Str → Str) (s : Str) : Str × Nat :=
  let out := pysubC r (fun (_ : Unit) m => (rep m, ())) s ()
  (out.1, out.2.1)

/-! ### Pattern syntax builders -/

def reSeq : List RE → RE
  | [] => RE.eps
  | [r] => r
  | r :: s :: rs => RE.cat r (reSeq (s :: rs))

def reAlts : List RE → RE
  | [] => RE.eps
  | [r] => r
  | r :: s :: rs => RE.alt r (reAlts (s :: rs))

def lit (c : Char) : RE := RE.cls (fun d => d = c)

def litS (s : String) : RE := reSeq (s.data.map lit)

/-- Case-insensitive literal character (`re.IGNORECASE`). -/
def ilit (c : Char) : RE := RE.cls (fun d => d.toLower = c.toLower)

def ilitS (s : String) : RE := reSeq (s.data.map ilit)

def reOpt (r : RE) : RE := RE.alt r RE.eps

def rePlus (r : RE) : RE := RE.cat r (RE.star r)

def reRep (r : RE) : Nat → RE
  | 0 => RE.eps
  | n + 1 => RE.cat r (reRep r n)

/-- Greedy `r{0,n}`: more repetitions are preferred. -/
def reUpTo (r : RE) : Nat → RE
  | 0 => RE.eps
  | n + 1 => reOpt (RE.cat r (reUpTo r n))

/-- Greedy `r{lo,hi}`. -/
def reRange (r : RE) (lo hi : Nat) : RE := RE.cat (reRep r lo) (reUpTo r (hi - lo))

/-- Greedy `r{n,}`. -/
def reAtLeast (r : RE) (n : Nat) : RE := RE.cat (reRep r n) (RE.star r)

def digitRE : RE := RE.cls Char.isDigit
def spaceRE : RE := RE.cls isSpacePy
def sepRE : RE := RE.cls (fun c => c = '-' || c = '.' || isSpacePy c)
def dashSpaceRE : RE := RE.cls (fun c => c = '-' || isSpacePy c)
def upperRE : RE := RE.cls (fun c => 'A' ≤ c && c ≤ 'Z')
def lowAlphaRE : RE := RE.cls (fun c => 'a' ≤ c && c ≤ 'z')

/-! ### The PII patterns (PATTERNS / PII_PATTERNS in the scripts) -/

def emailLocalC (c : Char) : Bool :=
  ('A' ≤ c && c ≤ 'Z') || ('a' ≤ c && c ≤ 'z') || c.isDigit ||
    c = '.' || c = '_' || c = '%' || c = '+' || c = '-'

def emailDomC (c : Char) : Bool :=
  ('A' ≤ c && c ≤ 'Z') || ('a' ≤ c && c ≤ 'z') || c.isDigit || c = '.' || c = '-'

/-- The character class written `[A-Z|a-z]` in the source: it also admits a
literal bar character. -/
def emailTldC (c : Char) : Bool := ('A' ≤ c && c ≤ 'Z') || c = '|' || ('a' ≤ c && c ≤ 'z')

def emailRE : RE := reSeq [RE.wordB, rePlus (RE.cls emailLocalC), lit '@',
  rePlus (RE.cls emailDomC), lit '.', reAtLeast (RE.cls emailTldC) 2, RE.wordB]

def phoneRE : RE := reSeq [
  reOpt (reSeq [lit '+', reRange digitRE 1 3, reOpt sepRE]),
  reOpt (lit '('), reRep digitRE 3, reOpt (lit ')'), reOpt sepRE,
  reRep digitRE 3, reOpt sepRE, reRep digitRE 4, RE.wordB]

def ccRE : RE := reSeq [RE.wordB, reRep digitRE 4, reOpt dashSpaceRE, reRep digitRE 4,
  reOpt dashSpaceRE, reRep digitRE 4, reOpt dashSpaceRE, reRep digitRE 4, RE.wordB]

def ssnRE : RE := reSeq [RE.wordB, reRep digitRE 3, lit '-', reRep digitRE 2,
  lit '-', reRep digitRE 4, RE.wordB]

def titleAltRE : RE := reAlts [litS "Mr.", litS "Mrs.", litS "Ms.", litS "Dr.", litS "Prof."]

def capWordRE : RE := RE.cat upperRE (rePlus lowAlphaRE)

def titleNameRE : RE := reSeq [RE.wordB, titleAltRE, rePlus spaceRE, capWordRE,
  reOpt (RE.cat (rePlus spaceRE) capWordRE), RE.wordB]

/-- One `First\s+Last` alternative of the executives pattern (case-insensitive). -/
def iname (a b : String) : RE := reSeq [ilitS a, rePlus spaceRE, ilitS b]

def execAltRE : RE := reAlts [iname "Kenneth" "Lay", iname "Ken" "Lay",
  iname "Jeff" "Skilling", iname "Jeffrey" "Skilling", iname "Andrew" "Fastow",
  iname "Rebecca" "Mark", iname "Lou" "Pai", iname "Cliff" "Baxter",
  iname "Mark" "Frevert", iname "Rick" "Buy", iname "Rick" "Causey",
  iname "Ben" "Glisan", iname "Sherron" "Watkins"]

def execRE : RE := reSeq [RE.wordB, execAltRE, RE.wordB]

def ipRE : RE := reSeq [RE.wordB, reRange digitRE 1 3, lit '.', reRange digitRE 1 3,
  lit '.', reRange digitRE 1 3, lit '.', reRange digitRE 1 3, RE.wordB]

def wordOrSpaceC (c : Char) : Bool := isWordC c || isSpacePy c

def streetSuffixRE : RE := reAlts (["street", "st", "avenue", "ave", "road", "rd",
  "boulevard", "blvd", "drive", "dr", "lane", "ln", "way", "court", "ct",
  "place", "pl"].map ilitS)

def streetRE : RE := reSeq [RE.wordB, reRange digitRE 1 5, rePlus spaceRE,
  rePlus (RE.cls wordOrSpaceC), streetSuffixRE, RE.wordB]

/-- The final rewrite in the Enron scrubber for leftover mentions. -/
def enronDomRE : RE := reSeq [lit '@', reOpt (ilitS "ect."), ilitS "enron.",
  reAlts [ilitS "com", ilitS "net"]]

/-! ### scrub_enron_pii.py -/

def ANONYMIZATION_SALT : Str := chars "zero-enron-pii-salt-2024"

/-- Definition of `hash_email` from scrub_enron_pii.py. -/
def hash_email (email : Str) : Str :=
  let hashValue := (sha256hex (lowerStr email ++ ANONYMIZATION_SALT)).take 8
  if ('@' : Char) ∈ email then
    let domain := (rsplitAt '@' email).2
    let domainParts := splitOnC '.' domain
    if 2 ≤ domainParts.length then
      chars "user_" ++ hashValue ++ chars "@example." ++ domainParts.getLastD []
    else chars "user_" ++ hashValue ++ chars "@example.com"
  else chars "user_" ++ hashValue ++ chars "@example.com"

/-- Group 1 of the titled-name pattern: the title literal.  Every title
alternative is the prefix of the match up to and including its first dot. -/
def titleOfMatch (m : Str) : Str := m.takeWhile (fun c => c ≠ '.') ++ ['.']

/-- Body of `scrub_pii` from scrub_enron_pii.py on non-empty text: the six
substitution passes, in source order, then the leftover-domain rewrite.
The counts dictionary is an association list in insertion order. -/
def scrubEnronStr (text : Str) : Str × List (String × Nat) :=
  let e := pysub emailRE hash_email text
  let ph := pysub phoneRE (fun _ => chars "[PHONE_REDACTED]") e.1
  let cc := pysub ccRE (fun _ => chars "[CARD_REDACTED]") ph.1
  let sn := pysub ssnRE (fun _ => chars "[SSN_REDACTED]") cc.1
  let tn := pysub titleNameRE (fun m => titleOfMatch m ++ chars " [NAME_REDACTED]") sn.1
  let ex := pysub execRE (fun _ => chars "[EXECUTIVE_REDACTED]") tn.1
  let dm := pysub enronDomRE (fun _ => chars "@example.com") ex.1
  (dm.1, [("emails", e.2), ("phones", ph.2), ("credit_cards", cc.2),
          ("ssns", sn.2), ("names", tn.2 + ex.2)])

/-- Definition of `scrub_pii` from scrub_enron_pii.py.  Here `none` models Python `None`; both
`None` and the empty string are falsy and are returned unchanged together
with an empty counts dictionary. -/
def scrub_pii_enron (text : Option Str) : Option Str × List (String × Nat) :=
  match text with
  | none => (none, [])
  | some s =>
    if s = [] then (some s, [])
    else
      let r := scrubEnronStr s
      (some r.1, r.2)

/-! ### scrub_personal_emails.py -/

/-- Definition of `generate_anonymous_email`: consult the cache keyed by the lower-cased
address, otherwise mint `user_<md5 prefix>@example.com` and cache it. -/
def generate_anonymous_email (original : Str) (cache : List (Str × Str)) :
    Str × List (Str × Str) :=
  let key := lowerStr original
  match alookup cache key with
  | some v => (v, cache)
  | none =>
    let hashVal := (md5hex key).take 8
    let anon := chars "user_" ++ hashVal ++ chars "@example.com"
    (anon, aset cache key anon)

/-- Definition of `generate_anonymous_name`. -/
def generate_anonymous_name (original : Str) (cache : List (Str × Str)) :
    Str × List (Str × Str) :=
  let key := lowerStr original
  match alookup cache key with
  | some v => (v, cache)
  | none =>
    let hashVal := (md5hex key).take 6
    let anon := chars "[PERSON_" ++ hashVal ++ chars "]"
    (anon, aset cache key anon)

/-- The module-level caches of scrub_personal_emails.py. -/
structure Caches where
  email_cache : List (Str × Str)
  name_cache : List (Str × Str)
deriving DecidableEq

/-- Body of `scrub_pii` from scrub_personal_emails.py on non-empty text: the seven
substitution passes in source order (`zip_code` and `date_of_birth` are
declared in PII_PATTERNS but never applied). -/
def scrubPersonalStr (text : Str) (caches : Caches) : Str × Caches :=
  let e := pysubC emailRE (fun c m => generate_anonymous_email m c) text caches.email_cache
  let ph := pysub phoneRE (fun _ => chars "[PHONE_REDACTED]") e.1
  let sn := pysub ssnRE (fun _ => chars "[SSN_REDACTED]") ph.1
  let cc := pysub ccRE (fun _ => chars "[CARD_REDACTED]") sn.1
  let ip := pysub ipRE (fun _ => chars "[IP_REDACTED]") cc.1
  let st := pysub streetRE (fun _ => chars "[ADDRESS_REDACTED]") ip.1
  let nm := pysubC titleNameRE (fun c m => generate_anonymous_name m c) st.1 caches.name_cache
  (nm.1, ⟨e.2.2, nm.2.2⟩)

/-- Definition of `scrub_pii` from scrub_personal_emails.py; None and the empty string are falsy and
returned unchanged, touching no cache. -/
def scrub_pii_personal (text : Option Str) (caches : Caches) : Option Str × Caches :=
  match text with
  | none => (none, caches)
  | some s =>
    if s = [] then (some s, caches)
    else
      let r := scrubPersonalStr s caches
      (some r.1, r.2)


/-! ### parse_email_message (scrub_enron_pii.py) -/

/-- The header keys retained by `parse_email_message`. -/
def headerKeys : List Str := [chars "from", chars "to", chars "subject",
  chars "date", chars "message-id", chars "x-from", chars "x-to"]

/-- Loop state of `parse_email_message`: collected headers, body lines, and
the flag set once the first blank line has been seen. -/
structure PState where
  headers : List (Str × Str)
  body_lines : List Str
  in_body : Bool
deriving DecidableEq

/-- One iteration of the `for line in lines` loop of `parse_email_message`.
A line before the first blank line that starts with a space or tab (a folded
header), or that contains no colon, falls through every branch and is
discarded. -/
def parseLine (st : PState) (line : Str) : PState :=
  if st.in_body then { st with body_lines := st.body_lines ++ [line] }
  else if pyStrip line = [] then { st with in_body := true }
  else if (':' : Char) ∈ line ∧ line.head? ≠ some ' ' ∧ line.head? ≠ some '\t' then
    let key := lowerStr (pyStrip (line.takeWhile (fun c => c ≠ ':')))
    let value := pyStrip ((line.dropWhile (fun c => c ≠ ':')).drop 1)
    if key ∈ headerKeys then { st with headers := aset st.headers key value } else st
  else st

/-- The parsed record returned by `parse_email_message`. -/
structure ParsedEmail where
  from_ : Str
  to_ : Str
  subject : Str
  date : Str
  message_id : Str
  body : Str
deriving DecidableEq

/-- Python falsy-or: `a or b` where a missing or empty string falls through. -/
def pyOr (a : Option Str) (b : Str) : Str :=
  match a with
  | none => b
  | some v => if v = [] then b else v

/-- Definition of `parse_email_message` from scrub_enron_pii.py.  An empty message is falsy
and yields `None`. -/
def parse_email_message (message : Str) : Option ParsedEmail :=
  if message = [] then none
  else
    let st := (splitOnC '\n' message).foldl parseLine ⟨[], [], false⟩
    let hget (k : Str) : Option Str := alookup st.headers k
    some
      { from_ := pyOr (hget (chars "from")) ((hget (chars "x-from")).getD [])
        to_ := pyOr (hget (chars "to")) ((hget (chars "x-to")).getD [])
        subject := (hget (chars "subject")).getD []
        date := (hget (chars "date")).getD []
        message_id := (hget (chars "message-id")).getD []
        body := pyStrip (joinSep '\n' st.body_lines) }

/-! ### rotating_baseline.py -/

/-- An email record as assembled by `parse_eml` / `parse_mbox_batch`. -/
structure EmailRec where
  subject : Str
  from_ : Str
  body : Str
deriving DecidableEq

/-- Definition of `get_email_hash`: md5 of the truncated subject, sender and body, joined
with bars, truncated to 12 hex characters. -/
def get_email_hash (e : EmailRec) : Str :=
  (md5hex (e.subject.take 50 ++ ['|'] ++ e.from_ ++ ['|'] ++ e.body.take 100)).take 12

/-- Persisted rotation state (`load_state` / `save_state`).  Timestamps in
`run_history` are omitted: wall-clock time is outside the model.
`processed_hashes` is the key set of the Python dict. -/
structure RBState where
  rotation_number : Nat
  processed_hashes : List Str
  source_progress : List (String × Nat)
  total_processed : Nat
  run_history : List (Nat × Nat × Nat)

/-- The fixed source order of `get_next_rotation_batch`. -/
inductive SrcType where
  | eml : SrcType
  | mbox : SrcType
  | enron : SrcType
deriving DecidableEq

def sources_order : List (SrcType × String) := [
  (SrcType.eml, "Inbox-001"),
  (SrcType.eml, "opened_emails"),
  (SrcType.mbox, "Starred2.mbox"),
  (SrcType.mbox, "Starred3.mbox"),
  (SrcType.eml, "starred_emails"),
  (SrcType.mbox, "Opened2.mbox"),
  (SrcType.mbox, "Opened3.mbox"),
  (SrcType.mbox, "Inbox-001.mbox"),
  (SrcType.mbox, "Sent-003.mbox"),
  (SrcType.mbox, "Inbox-002.mbox"),
  (SrcType.enron, "enron")]

/-- The effective source order: the fixed list rotated left by
`rotation mod len`. -/
def rotated_sources (rotation : Nat) : List (SrcType × String) :=
  sources_order.drop (rotation % sources_order.length) ++
    sources_order.take (rotation % sources_order.length)

/-- The progress key: the source type string, an underscore, the source name. -/
def sourceKey (t : SrcType) (name : String) : String :=
  (match t with
   | SrcType.eml => "eml"
   | SrcType.mbox => "mbox"
   | SrcType.enron => "enron") ++ "_" ++ name

/-- The filesystem contents seen by one run.  For an eml directory, the
sorted file listing with each file's parse result (`none` = parse failure);
for an mbox, the message sequence likewise; `none` at the top level models a
missing path.  `samplePerm` abstracts `random.sample`'s shuffling: the
sample of size k is the first k entries of the permuted section. -/
structure Env where
  emlFiles : String → Option (List (Option EmailRec))
  mboxMsgs : String → Option (List (Option EmailRec))
  enronData : Option (List EmailRec)
  samplePerm : List EmailRec → List EmailRec

/-- Model of `parse_mbox_batch`: enumerate messages, skip the first `offset`
(parse failures included in the enumeration), then collect parse successes
until `limit` records. -/
def collectUpTo : Nat → List (Option EmailRec) → List EmailRec
  | _, [] => []
  | limit, o :: rest =>
    if limit = 0 then []
    else
      match o with
      | some r => r :: collectUpTo (limit - 1) rest
      | none => collectUpTo limit rest

/-- One source visit of the `for source_type, source_name in rotated_sources`
loop: the accumulator is (source_progress, emails_needed, batch).  The
`emails_needed <= 0: break` of the source is rendered as a no-op visit, which
leaves the same final state. -/
def pullStep (env : Env) (rotation : Nat)
    (acc : List (String × Nat) × Nat × List (EmailRec × String))
    (src : SrcType × String) : List (String × Nat) × Nat × List (EmailRec × String) :=
  let prog := acc.1
  let needed := acc.2.1
  let batch := acc.2.2
  if needed = 0 then acc
  else
    match src.1 with
    | SrcType.eml =>
      match env.emlFiles src.2 with
      | none => acc
      | some files =>
        let key := sourceKey SrcType.eml src.2
        let offset := agetD prog key 0
        let slice := (files.drop offset).take needed
        let recs := (slice.filterMap id).map (fun r => (r, src.2))
        (aset prog key (offset + slice.length), needed - slice.length, batch ++ recs)
    | SrcType.mbox =>
      match env.mboxMsgs src.2 with
      | none => acc
      | some msgs =>
        let key := sourceKey SrcType.mbox src.2
        let offset := agetD prog key 0
        let got := collectUpTo needed (msgs.drop offset)
        (aset prog key (offset + got.length), needed - got.length,
          batch ++ got.map (fun r => (r, src.2)))
    | SrcType.enron =>
      match env.enronData with
      | none => acc
      | some data =>
        let sectionSize := data.length / 10
        let sectionStart := (rotation % 10) * sectionSize
        let sect := (data.drop sectionStart).take sectionSize
        let sample := (env.samplePerm sect).take (min needed sect.length)
        (prog, needed - sample.length, batch ++ sample.map (fun r => (r, "enron")))

/-- Definition of `get_next_rotation_batch`: walk the rotated source order, assembling the
batch and advancing `source_progress` in the state. -/
def get_next_rotation_batch (env : Env) (st : RBState) (batch_size : Nat) :
    RBState × List (EmailRec × String) :=
  let res := (rotated_sources st.rotation_number).foldl
    (pullStep env st.rotation_number) (st.source_progress, batch_size, [])
  ({ st with source_progress := res.1 }, res.2.2)

/-- The rotation-number increment at the start of `main`. -/
def next_rotation (st : RBState) : RBState :=
  { st with rotation_number := st.rotation_number + 1 }

/-- One step of the new-email counting loop in `main`: look up the record's
fingerprint in the seen set; a hit changes nothing, a miss stores the
fingerprint and counts the record as new. -/
def dedupStep (acc : List Str × Nat) (e : EmailRec) : List Str × Nat :=
  let h := get_email_hash e
  if h ∈ acc.1 then acc else (h :: acc.1, acc.2 + 1)

/-- The full counting loop of `main` over a batch, starting from the
persisted `processed_hashes` set. -/
def count_new (hashes : List Str) (batch : List EmailRec) : List Str × Nat :=
  batch.foldl dedupStep (hashes, 0)

/-!
## Claims
-/

/-- C2: on the Scenario A input, the Enron `scrub_pii` replaces the address
with its deterministic sender pseudonym, the phone number with
PHONE_REDACTED, the SSN with SSN_REDACTED, and reports exactly one match in
the address, phone and national-id categories and zero in the others. -/
theorem C2_scenario_A :
    scrub_pii_enron
        (some (chars "Contact Jane at jane.doe@corp.com or 555-123-4567, SSN 123-45-6789")) =
      (some (chars "Contact Jane at user_8886aaf9@example.com or [PHONE_REDACTED], SSN [SSN_REDACTED]"),
       [("emails", 1), ("phones", 1), ("credit_cards", 0), ("ssns", 1), ("names", 0)]) := by
  decide

/-- C1 fails: scrubbing is not idempotent.  On the single address
jane.doe@corp.com, the pseudonym produced by the first pass itself matches
the address pattern, so the Enron scrubber's second application changes the
text again and reports an address count of one rather than all-zero counts;
the personal scrubber likewise returns a different text on the second
application. -/
theorem C1_counterexample :
    (let first := scrubEnronStr (chars "jane.doe@corp.com")
     let second := scrubEnronStr first.1
     second.1 ≠ first.1 ∧
       second.2 = [("emails", 1), ("phones", 0), ("credit_cards", 0), ("ssns", 0), ("names", 0)]) ∧
    (let p1 := scrubPersonalStr (chars "jane.doe@corp.com") ⟨[], []⟩
     (scrubPersonalStr p1.1 p1.2).1 ≠ p1.1) := by
  decide

/-- A substitution pass that makes zero replacements returns its input text
and its state unchanged: the key engine fact behind the amended C1. -/
theorem pysubSt_count_zero {σ : Type} (fuel : Nat) (r : RE) (rep : σ → Str → Str × σ) :
    ∀ (st : σ) (p : Option Char) (s : Str),
      (pysubSt fuel r rep st p s).2.1 = 0 → pysubSt fuel r rep st p s = (s, 0, st) := by
  induction fuel with
  | zero =>
    intro st p s _
    rfl
  | succ fuel ih =>
    intro st p s h
    simp only [pysubSt] at h ⊢
    cases hm : (reMatches FUEL r p s).head? with
    | some x =>
      simp only [hm] at h ⊢
      by_cases hlt : x.2.length < s.length
      · rw [if_pos hlt] at h
        have h2 : (pysubSt fuel r rep (rep st (s.take (s.length - x.2.length))).2
            x.1 x.2).2.1 + 1 = 0 := h
        exact absurd h2 (Nat.succ_ne_zero _)
      · rw [if_neg hlt] at h ⊢
        cases s with
        | nil => rfl
        | cons c s' =>
          have h' : (pysubSt fuel r rep st (some c) s').2.1 = 0 := h
          have heq := ih st (some c) s' h'
          show (c :: (pysubSt fuel r rep st (some c) s').1,
                (pysubSt fuel r rep st (some c) s').2.1,
                (pysubSt fuel r rep st (some c) s').2.2) = (c :: s', 0, st)
          rw [heq]
    | none =>
      simp only [hm] at h ⊢
      cases s with
      | nil => rfl
      | cons c s' =>
        have h' : (pysubSt fuel r rep st (some c) s').2.1 = 0 := h
        have heq := ih st (some c) s' h'
        show (c :: (pysubSt fuel r rep st (some c) s').1,
              (pysubSt fuel r rep st (some c) s').2.1,
              (pysubSt fuel r rep st (some c) s').2.2) = (c :: s', 0, st)
        rw [heq]

theorem pysubC_count_zero {σ : Type} (r : RE) (rep : σ → Str → Str × σ) (s : Str) (st : σ)
    (h : (pysubC r rep s st).2.1 = 0) : pysubC r rep s st = (s, 0, st) :=
  pysubSt_count_zero (s.length + 1) r rep st none s h

theorem pysub_count_zero (r : RE) (rep : Str → Str) (s : Str)
    (h : (pysub r rep s).2 = 0) : pysub r rep s = (s, 0) := by
  have h' : (pysubC r (fun (_ : Unit) m => (rep m, ())) s ()).2.1 = 0 := h
  have heq := pysubC_count_zero r (fun (_ : Unit) m => (rep m, ())) s () h'
  show ((pysubC r (fun (_ : Unit) m => (rep m, ())) s ()).1,
        (pysubC r (fun (_ : Unit) m => (rep m, ())) s ()).2.1) = (s, 0)
  rw [heq]

/-- When each of the seven Enron passes finds no match in a text, the Enron
scrubber returns that text unchanged with all-zero category counts. -/
theorem scrubEnron_no_match (t : Str)
    (h1 : (pysub emailRE hash_email t).2 = 0)
    (h2 : (pysub phoneRE (fun _ => chars "[PHONE_REDACTED]") t).2 = 0)
    (h3 : (pysub ccRE (fun _ => chars "[CARD_REDACTED]") t).2 = 0)
    (h4 : (pysub ssnRE (fun _ => chars "[SSN_REDACTED]") t).2 = 0)
    (h5 : (pysub titleNameRE (fun m => titleOfMatch m ++ chars " [NAME_REDACTED]") t).2 = 0)
    (h6 : (pysub execRE (fun _ => chars "[EXECUTIVE_REDACTED]") t).2 = 0)
    (h7 : (pysub enronDomRE (fun _ => chars "@example.com") t).2 = 0) :
    scrubEnronStr t =
      (t, [("emails", 0), ("phones", 0), ("credit_cards", 0), ("ssns", 0), ("names", 0)]) := by
  have e1 := pysub_count_zero _ _ _ h1
  have e2 := pysub_count_zero _ _ _ h2
  have e3 := pysub_count_zero _ _ _ h3
  have e4 := pysub_count_zero _ _ _ h4
  have e5 := pysub_count_zero _ _ _ h5
  have e6 := pysub_count_zero _ _ _ h6
  have e7 := pysub_count_zero _ _ _ h7
  simp only [scrubEnronStr, e1, e2, e3, e4, e5, e6, e7, Nat.add_zero]

/-- When each of the seven personal passes finds no match in a text, the
personal scrubber returns that text and both caches unchanged. -/
theorem scrubPersonal_no_match (t : Str) (σ : Caches)
    (p1 : (pysubC emailRE (fun c m => generate_anonymous_email m c) t σ.email_cache).2.1 = 0)
    (p2 : (pysub phoneRE (fun _ => chars "[PHONE_REDACTED]") t).2 = 0)
    (p3 : (pysub ssnRE (fun _ => chars "[SSN_REDACTED]") t).2 = 0)
    (p4 : (pysub ccRE (fun _ => chars "[CARD_REDACTED]") t).2 = 0)
    (p5 : (pysub ipRE (fun _ => chars "[IP_REDACTED]") t).2 = 0)
    (p6 : (pysub streetRE (fun _ => chars "[ADDRESS_REDACTED]") t).2 = 0)
    (p7 : (pysubC titleNameRE (fun c m => generate_anonymous_name m c) t σ.name_cache).2.1 = 0) :
    scrubPersonalStr t σ = (t, σ) := by
  have e1 := pysubC_count_zero _ _ _ _ p1
  have e2 := pysub_count_zero _ _ _ p2
  have e3 := pysub_count_zero _ _ _ p3
  have e4 := pysub_count_zero _ _ _ p4
  have e5 := pysub_count_zero _ _ _ p5
  have e6 := pysub_count_zero _ _ _ p6
  have e7 := pysubC_count_zero _ _ _ _ p7
  simp only [scrubPersonalStr, e1, e2, e3, e4, e5, e6, e7]

/-- C1 amended: scrubbing is not idempotent on texts containing an email
address, because the substituted pseudonym matches the address pattern again
and is re-replaced.  What holds instead, for every input text and cache
state: a pass that makes zero replacements is the identity, so whenever each
pattern finds no match in the once-scrubbed output — as with the fixed
redaction tokens substituted for phone, SSN, card, IP, street, titled-name
and known-executive PII — the second application returns the once-scrubbed
text unchanged, with every category count zero for the Enron scrubber and
both caches unchanged for the personal scrubber. -/
theorem C1_amended (T : Str) (σ : Caches)
    (hE1 : (pysub emailRE hash_email ((scrubEnronStr T).1)).2 = 0)
    (hE2 : (pysub phoneRE (fun _ => chars "[PHONE_REDACTED]") ((scrubEnronStr T).1)).2 = 0)
    (hE3 : (pysub ccRE (fun _ => chars "[CARD_REDACTED]") ((scrubEnronStr T).1)).2 = 0)
    (hE4 : (pysub ssnRE (fun _ => chars "[SSN_REDACTED]") ((scrubEnronStr T).1)).2 = 0)
    (hE5 : (pysub titleNameRE (fun m => titleOfMatch m ++ chars " [NAME_REDACTED]")
      ((scrubEnronStr T).1)).2 = 0)
    (hE6 : (pysub execRE (fun _ => chars "[EXECUTIVE_REDACTED]") ((scrubEnronStr T).1)).2 = 0)
    (hE7 : (pysub enronDomRE (fun _ => chars "@example.com") ((scrubEnronStr T).1)).2 = 0)
    (hP1 : (pysubC emailRE (fun c m => generate_anonymous_email m c)
      ((scrubPersonalStr T σ).1) ((scrubPersonalStr T σ).2).email_cache).2.1 = 0)
    (hP2 : (pysub phoneRE (fun _ => chars "[PHONE_REDACTED]") ((scrubPersonalStr T σ).1)).2 = 0)
    (hP3 : (pysub ssnRE (fun _ => chars "[SSN_REDACTED]") ((scrubPersonalStr T σ).1)).2 = 0)
    (hP4 : (pysub ccRE (fun _ => chars "[CARD_REDACTED]") ((scrubPersonalStr T σ).1)).2 = 0)
    (hP5 : (pysub ipRE (fun _ => chars "[IP_REDACTED]") ((scrubPersonalStr T σ).1)).2 = 0)
    (hP6 : (pysub streetRE (fun _ => chars "[ADDRESS_REDACTED]") ((scrubPersonalStr T σ).1)).2 = 0)
    (hP7 : (pysubC titleNameRE (fun c m => generate_anonymous_name m c)
      ((scrubPersonalStr T σ).1) ((scrubPersonalStr T σ).2).name_cache).2.1 = 0) :
    scrubEnronStr ((scrubEnronStr T).1) =
      ((scrubEnronStr T).1,
       [("emails", 0), ("phones", 0), ("credit_cards", 0), ("ssns", 0), ("names", 0)]) ∧
    scrubPersonalStr ((scrubPersonalStr T σ).1) ((scrubPersonalStr T σ).2) =
      scrubPersonalStr T σ := by
  refine ⟨scrubEnron_no_match _ hE1 hE2 hE3 hE4 hE5 hE6 hE7, ?_⟩
  rw [scrubPersonal_no_match _ _ hP1 hP2 hP3 hP4 hP5 hP6 hP7]

/-- The witness text for C1_amended: phone, SSN, card, IP, street,
titled-name and known-executive PII, no email address. -/
def redactOnlyT : Str :=
  chars "555-123-4567, 123-45-6789, 4111-1111-1111-1111, 1.2.3.4, 1 a st, Dr. Jo, Ken Lay"

/-- Witness for C1_amended: on the redaction-only text every second-pass
pattern finds no match, and the conclusion follows from the theorem. -/
theorem C1_amended_witness :
    ((pysub emailRE hash_email ((scrubEnronStr redactOnlyT).1)).2 = 0 ∧
     (pysub phoneRE (fun _ => chars "[PHONE_REDACTED]") ((scrubEnronStr redactOnlyT).1)).2 = 0 ∧
     (pysub ccRE (fun _ => chars "[CARD_REDACTED]") ((scrubEnronStr redactOnlyT).1)).2 = 0 ∧
     (pysub ssnRE (fun _ => chars "[SSN_REDACTED]") ((scrubEnronStr redactOnlyT).1)).2 = 0 ∧
     (pysub titleNameRE (fun m => titleOfMatch m ++ chars " [NAME_REDACTED]")
       ((scrubEnronStr redactOnlyT).1)).2 = 0 ∧
     (pysub execRE (fun _ => chars "[EXECUTIVE_REDACTED]") ((scrubEnronStr redactOnlyT).1)).2 = 0 ∧
     (pysub enronDomRE (fun _ => chars "@example.com") ((scrubEnronStr redactOnlyT).1)).2 = 0 ∧
     (pysubC emailRE (fun c m => generate_anonymous_email m c)
       ((scrubPersonalStr redactOnlyT ⟨[], []⟩).1)
       ((scrubPersonalStr redactOnlyT ⟨[], []⟩).2).email_cache).2.1 = 0 ∧
     (pysub phoneRE (fun _ => chars "[PHONE_REDACTED]")
       ((scrubPersonalStr redactOnlyT ⟨[], []⟩).1)).2 = 0 ∧
     (pysub ssnRE (fun _ => chars "[SSN_REDACTED]")
       ((scrubPersonalStr redactOnlyT ⟨[], []⟩).1)).2 = 0 ∧
     (pysub ccRE (fun _ => chars "[CARD_REDACTED]")
       ((scrubPersonalStr redactOnlyT ⟨[], []⟩).1)).2 = 0 ∧
     (pysub ipRE (fun _ => chars "[IP_REDACTED]")
       ((scrubPersonalStr redactOnlyT ⟨[], []⟩).1)).2 = 0 ∧
     (pysub streetRE (fun _ => chars "[ADDRESS_REDACTED]")
       ((scrubPersonalStr redactOnlyT ⟨[], []⟩).1)).2 = 0 ∧
     (pysubC titleNameRE (fun c m => generate_anonymous_name m c)
       ((scrubPersonalStr redactOnlyT ⟨[], []⟩).1)
       ((scrubPersonalStr redactOnlyT ⟨[], []⟩).2).name_cache).2.1 = 0) ∧
    (scrubEnronStr ((scrubEnronStr redactOnlyT).1) =
       ((scrubEnronStr redactOnlyT).1,
        [("emails", 0), ("phones", 0), ("credit_cards", 0), ("ssns", 0), ("names", 0)]) ∧
     scrubPersonalStr ((scrubPersonalStr redactOnlyT ⟨[], []⟩).1)
         ((scrubPersonalStr redactOnlyT ⟨[], []⟩).2) =
       scrubPersonalStr redactOnlyT ⟨[], []⟩) := by
  have hE1 : (pysub emailRE hash_email ((scrubEnronStr redactOnlyT).1)).2 = 0 := by decide
  have hE2 : (pysub phoneRE (fun _ => chars "[PHONE_REDACTED]")
      ((scrubEnronStr redactOnlyT).1)).2 = 0 := by decide
  have hE3 : (pysub ccRE (fun _ => chars "[CARD_REDACTED]")
      ((scrubEnronStr redactOnlyT).1)).2 = 0 := by decide
  have hE4 : (pysub ssnRE (fun _ => chars "[SSN_REDACTED]")
      ((scrubEnronStr redactOnlyT).1)).2 = 0 := by decide
  have hE5 : (pysub titleNameRE (fun m => titleOfMatch m ++ chars " [NAME_REDACTED]")
      ((scrubEnronStr redactOnlyT).1)).2 = 0 := by decide
  have hE6 : (pysub execRE (fun _ => chars "[EXECUTIVE_REDACTED]")
      ((scrubEnronStr redactOnlyT).1)).2 = 0 := by decide
  have hE7 : (pysub enronDomRE (fun _ => chars "@example.com")
      ((scrubEnronStr redactOnlyT).1)).2 = 0 := by decide
  have hP1 : (pysubC emailRE (fun c m => generate_anonymous_email m c)
      ((scrubPersonalStr redactOnlyT ⟨[], []⟩).1)
      ((scrubPersonalStr redactOnlyT ⟨[], []⟩).2).email_cache).2.1 = 0 := by decide
  have hP2 : (pysub phoneRE (fun _ => chars "[PHONE_REDACTED]")
      ((scrubPersonalStr redactOnlyT ⟨[], []⟩).1)).2 = 0 := by decide
  have hP3 : (pysub ssnRE (fun _ => chars "[SSN_REDACTED]")
      ((scrubPersonalStr redactOnlyT ⟨[], []⟩).1)).2 = 0 := by decide
  have hP4 : (pysub ccRE (fun _ => chars "[CARD_REDACTED]")
      ((scrubPersonalStr redactOnlyT ⟨[], []⟩).1)).2 = 0 := by decide
  have hP5 : (pysub ipRE (fun _ => chars "[IP_REDACTED]")
      ((scrubPersonalStr redactOnlyT ⟨[], []⟩).1)).2 = 0 := by decide
  have hP6 : (pysub streetRE (fun _ => chars "[ADDRESS_REDACTED]")
      ((scrubPersonalStr redactOnlyT ⟨[], []⟩).1)).2 = 0 := by decide
  have hP7 : (pysubC titleNameRE (fun c m => generate_anonymous_name m c)
      ((scrubPersonalStr redactOnlyT ⟨[], []⟩).1)
      ((scrubPersonalStr redactOnlyT ⟨[], []⟩).2).name_cache).2.1 = 0 := by decide
  exact ⟨⟨hE1, hE2, hE3, hE4, hE5, hE6, hE7, hP1, hP2, hP3, hP4, hP5, hP6, hP7⟩,
    C1_amended redactOnlyT ⟨[], []⟩ hE1 hE2 hE3 hE4 hE5 hE6 hE7
      hP1 hP2 hP3 hP4 hP5 hP6 hP7⟩

/-- C4 fails: the known-entity list is applied last, not first.  The listed
name Kenneth Lay preceded by a title is captured by the generic titled-name
rule, which runs earlier, so the result is the generic replacement and the
specific token EXECUTIVE_REDACTED never appears. -/
theorem C4_counterexample :
    (scrubEnronStr (chars "Mr. Kenneth Lay")).1 = chars "Mr. [NAME_REDACTED]" ∧
    ¬ (chars "[EXECUTIVE_REDACTED]" <:+: (scrubEnronStr (chars "Mr. Kenneth Lay")).1) := by
  decide

/-- C4 amended: the known-entity matcher runs after the generic titled-name
matcher.  A listed individual's bare name is replaced by the specific token
EXECUTIVE_REDACTED, but with a preceding title the titled-name rule fires
first and produces the generic replacement instead; both count toward the
names category. -/
theorem C4_amended :
    scrubEnronStr (chars "Kenneth Lay called") =
      (chars "[EXECUTIVE_REDACTED] called",
       [("emails", 0), ("phones", 0), ("credit_cards", 0), ("ssns", 0), ("names", 1)]) ∧
    scrubEnronStr (chars "Mr. Kenneth Lay") =
      (chars "Mr. [NAME_REDACTED]",
       [("emails", 0), ("phones", 0), ("credit_cards", 0), ("ssns", 0), ("names", 1)]) := by
  decide

/-- C9: both scrubbers treat empty and missing text as falsy and return it
unchanged without touching any state; the Enron variant returns the empty
counts dictionary in that case, while a non-empty text with no PII gets the
zero-filled five-category dictionary. -/
theorem C9_empty_input :
    scrub_pii_enron none = (none, []) ∧
    scrub_pii_enron (some []) = (some [], []) ∧
    scrub_pii_enron (some (chars "abc")) =
      (some (chars "abc"),
       [("emails", 0), ("phones", 0), ("credit_cards", 0), ("ssns", 0), ("names", 0)]) ∧
    ∀ caches : Caches,
      scrub_pii_personal none caches = (none, caches) ∧
        scrub_pii_personal (some []) caches = (some [], caches) := by
  exact ⟨by decide, by decide, by decide, fun _ => ⟨rfl, rfl⟩⟩

/-! ### Association-list lemmas -/

theorem alookup_aset_self {κ ν : Type} [DecidableEq κ] (d : List (κ × ν)) (k : κ) (v : ν) :
    alookup (aset d k v) k = some v := by
  induction d with
  | nil => simp [aset, alookup]
  | cons p rest ih =>
    by_cases h : p.1 = k
    · simp [aset, h, alookup]
    · simp [aset, h, alookup, ih]

theorem alookup_aset_ne {κ ν : Type} [DecidableEq κ] (d : List (κ × ν)) (k k' : κ) (v : ν)
    (h : k ≠ k') : alookup (aset d k v) k' = alookup d k' := by
  induction d with
  | nil => simp [aset, alookup, h]
  | cons p rest ih =>
    by_cases hp : p.1 = k
    · simp [aset, hp, alookup, h, ih]
    · simp [aset, hp, alookup, ih]

theorem alookup_mem {κ ν : Type} [DecidableEq κ] (d : List (κ × ν)) (k : κ) (v : ν)
    (h : alookup d k = some v) : (k, v) ∈ d := by
  induction d with
  | nil => simp [alookup] at h
  | cons p rest ih =>
    by_cases hp : p.1 = k
    · simp [alookup, hp] at h
      have hkv : (k, v) = p := Prod.ext hp.symm h.symm
      rw [hkv]
      exact List.mem_cons_self _ _
    · simp [alookup, hp] at h
      exact List.mem_cons_of_mem _ (ih h)

theorem agetD_aset_self (d : List (String × Nat)) (k : String) (v v₀ : Nat) :
    agetD (aset d k v) k v₀ = v := by
  unfold agetD
  rw [alookup_aset_self]
  rfl

/-! ### Cache determinism lemmas (scrub_personal_emails.py) -/

theorem gen_email_cached (x : Str) (c : List (Str × Str)) (v : Str)
    (h : alookup c (lowerStr x) = some v) : (generate_anonymous_email x c).1 = v := by
  unfold generate_anonymous_email
  simp [h]

theorem gen_email_lookup_self (x : Str) (c : List (Str × Str)) :
    alookup (generate_anonymous_email x c).2 (lowerStr x) =
      some (generate_anonymous_email x c).1 := by
  unfold generate_anonymous_email
  cases hc : alookup c (lowerStr x) with
  | some w => simp [hc]
  | none => simp [hc, alookup_aset_self]

theorem gen_email_preserves (y : Str) (c : List (Str × Str)) (k v : Str)
    (h : alookup c k = some v) :
    alookup (generate_anonymous_email y c).2 k = some v := by
  unfold generate_anonymous_email
  cases hc : alookup c (lowerStr y) with
  | some w => simpa [hc]
  | none =>
    have hk : lowerStr y ≠ k := by
      intro e
      rw [e, h] at hc
      cases hc
    simp [hc, alookup_aset_ne _ _ _ _ hk, h]

/-- A run's worth of further resolver calls, threading the cache. -/
def genMany (ys : List Str) (cache : List (Str × Str)) : List (Str × Str) :=
  ys.foldl (fun c y => (generate_anonymous_email y c).2) cache

theorem genMany_preserves (ys : List Str) (c : List (Str × Str)) (k v : Str)
    (h : alookup c k = some v) : alookup (genMany ys c) k = some v := by
  induction ys generalizing c with
  | nil => simpa [genMany]
  | cons y ys ih =>
    show alookup (genMany ys (generate_anonymous_email y c).2) k = some v
    exact ih _ (gen_email_preserves y c k v h)

/-- C5: within one run, pseudonym resolution is deterministic and
referentially consistent.  Whatever the cache state, resolving an address,
then resolving any number of other identifiers, then resolving the same
address again yields the byte-identical pseudonym; concretely, two records
both from jane.doe@corp.com scrubbed in the same run, with another sender in
between, receive the same replacement. -/
theorem C5_referential_integrity (cache : List (Str × Str)) (x : Str) (ys : List Str) :
    (generate_anonymous_email x (genMany ys (generate_anonymous_email x cache).2)).1 =
      (generate_anonymous_email x cache).1 ∧
    (let r1 := scrubPersonalStr (chars "jane.doe@corp.com") ⟨[], []⟩
     let r2 := scrubPersonalStr (chars "bob@other.net") r1.2
     let r3 := scrubPersonalStr (chars "jane.doe@corp.com") r2.2
     r3.1 = r1.1) := by
  constructor
  · exact gen_email_cached x _ _
      (genMany_preserves ys _ _ _ (gen_email_lookup_self x cache))
  · decide

/-- C3 fails for the personal scrubber: `generate_anonymous_email` maps every
address to an example.com pseudonym, so the pseudonym of alice@foo.org does
not end in the original top-level-domain suffix .org. -/
theorem C3_counterexample :
    ¬ (chars ".org" <:+ (generate_anonymous_email (chars "alice@foo.org") []).1) := by
  decide

/-- C3 amended: only the Enron scrubber's `hash_email` preserves the
original top-level domain suffix (for an address whose domain has at least
two dot-separated parts); the personal scrubber's
`generate_anonymous_email` instead always produces a pseudonym ending in
the fixed suffix example.com, whatever the original domain was. -/
theorem C3_amended (e : Str) (h : ('@' : Char) ∈ e)
    (hp : 2 ≤ (splitOnC '.' (rsplitAt '@' e).2).length)
    (orig : Str) (cache : List (Str × Str))
    (hc : ∀ p ∈ cache, chars "@example.com" <:+ p.2) :
    ('.' :: (splitOnC '.' (rsplitAt '@' e).2).getLastD []) <:+ hash_email e ∧
      chars "@example.com" <:+ (generate_anonymous_email orig cache).1 := by
  constructor
  · show ('.' :: (splitOnC '.' (rsplitAt '@' e).2).getLastD []) <:+ hash_email e
    unfold hash_email
    rw [if_pos h, if_pos hp]
    refine ⟨chars "user_" ++ (sha256hex (lowerStr e ++ ANONYMIZATION_SALT)).take 8 ++
      chars "@example", ?_⟩
    simp [chars, List.append_assoc]
  · unfold generate_anonymous_email
    cases hl : alookup cache (lowerStr orig) with
    | some v =>
      simpa [hl] using hc _ (alookup_mem _ _ _ hl)
    | none =>
      simp only [hl]
      exact ⟨chars "user_" ++ (md5hex (lowerStr orig)).take 8, by simp [chars, List.append_assoc]⟩

/-- Witness for C3_amended at alice@foo.org with an empty cache. -/
theorem C3_amended_witness :
    (('@' : Char) ∈ chars "alice@foo.org") ∧
    2 ≤ (splitOnC '.' (rsplitAt '@' (chars "alice@foo.org")).2).length ∧
    (('.' :: (splitOnC '.' (rsplitAt '@' (chars "alice@foo.org")).2).getLastD []) <:+
        hash_email (chars "alice@foo.org") ∧
      chars "@example.com" <:+ (generate_anonymous_email (chars "bob@foo.org") []).1) :=
  ⟨by decide, by decide,
   C3_amended (chars "alice@foo.org") (by decide) (by decide) (chars "bob@foo.org") []
     (by intro p hp; exact absurd hp (List.not_mem_nil p))⟩

/-! ### Coverage monotonicity (rotating_baseline.py) -/

theorem agetD_aset_add_mono (d : List (String × Nat)) (k key : String) (n : Nat) :
    agetD d key 0 ≤ agetD (aset d k (agetD d k 0 + n)) key 0 := by
  by_cases hk : k = key
  · subst hk
    rw [agetD_aset_self]
    exact Nat.le_add_right _ _
  · unfold agetD
    rw [alookup_aset_ne _ _ _ _ hk]

theorem pullStep_progress_mono (env : Env) (rotation : Nat)
    (acc : List (String × Nat) × Nat × List (EmailRec × String))
    (src : SrcType × String) (key : String) :
    agetD acc.1 key 0 ≤ agetD (pullStep env rotation acc src).1 key 0 := by
  obtain ⟨t, name⟩ := src
  dsimp only [pullStep]
  by_cases hn : acc.2.1 = 0
  · rw [if_pos hn]
  · rw [if_neg hn]
    cases t with
    | eml =>
      cases henv : env.emlFiles name with
      | none => exact Nat.le_refl _
      | some files => exact agetD_aset_add_mono _ _ _ _
    | mbox =>
      cases henv : env.mboxMsgs name with
      | none => exact Nat.le_refl _
      | some msgs => exact agetD_aset_add_mono _ _ _ _
    | enron =>
      cases henv : env.enronData with
      | none => exact Nat.le_refl _
      | some data => exact Nat.le_refl _

theorem pull_fold_mono (env : Env) (rotation : Nat) (srcs : List (SrcType × String))
    (acc : List (String × Nat) × Nat × List (EmailRec × String)) (key : String) :
    agetD acc.1 key 0 ≤ agetD (srcs.foldl (pullStep env rotation) acc).1 key 0 := by
  induction srcs generalizing acc with
  | nil => exact Nat.le_refl _
  | cons s rest ih =>
    exact Nat.le_trans (pullStep_progress_mono env rotation acc s key)
      (ih (pullStep env rotation acc s))

/-- C7: source coverage progress is monotonic.  For every persisted state,
environment, batch size and source key, assembling one rotation's batch
never decreases the recorded offset: each visited source sets its offset to
the previous offset plus the length of the slice actually returned. -/
theorem C7_progress_monotone (env : Env) (st : RBState) (batch_size : Nat) (key : String) :
    agetD st.source_progress key 0 ≤
      agetD (get_next_rotation_batch env st batch_size).1.source_progress key 0 := by
  unfold get_next_rotation_batch
  exact pull_fold_mono env st.rotation_number (rotated_sources st.rotation_number)
    (st.source_progress, batch_size, []) key

/-! ### Deduplication (rotating_baseline.py main loop) -/

theorem dedupStep_mem_preserved (acc : List Str × Nat) (e : EmailRec) (h : Str)
    (hm : h ∈ acc.1) : h ∈ (dedupStep acc e).1 := by
  simp only [dedupStep]
  split
  · exact hm
  · exact List.mem_cons_of_mem _ hm

theorem dedup_fold_mem (b : List EmailRec) (acc : List Str × Nat) (h : Str)
    (hm : h ∈ acc.1) : h ∈ (b.foldl dedupStep acc).1 := by
  induction b generalizing acc with
  | nil => exact hm
  | cons x rest ih => exact ih _ (dedupStep_mem_preserved acc x h hm)

/-- C8: no double counting.  A record whose fingerprint is already in the
seen set contributes zero to the new-record count wherever it is selected in
the batch, and a record with an unseen fingerprint contributes exactly one
and has its fingerprint stored. -/
theorem C8_no_double_count (hashes : List Str) (n : Nat) (b1 b2 : List EmailRec)
    (r : EmailRec) :
    (get_email_hash r ∈ hashes →
      count_new hashes (b1 ++ r :: b2) = count_new hashes (b1 ++ b2)) ∧
    (get_email_hash r ∉ hashes →
      dedupStep (hashes, n) r = (get_email_hash r :: hashes, n + 1)) := by
  constructor
  · intro hseen
    unfold count_new
    rw [List.foldl_append, List.foldl_append, List.foldl_cons]
    have hstep : dedupStep (b1.foldl dedupStep (hashes, 0)) r
        = b1.foldl dedupStep (hashes, 0) := by
      simp only [dedupStep]
      rw [if_pos (dedup_fold_mem b1 (hashes, 0) _ hseen)]
    rw [hstep]
  · intro hnew
    simp only [dedupStep]
    rw [if_neg hnew]

/-- Witness for C8_no_double_count: a batch re-selecting an already seen
record adds nothing, a fresh record counts once and is recorded. -/
theorem C8_no_double_count_witness :
    (get_email_hash ⟨chars "Hi", chars "a@b.com", chars "hello"⟩ ∈
        [get_email_hash ⟨chars "Hi", chars "a@b.com", chars "hello"⟩] ∧
      count_new [get_email_hash ⟨chars "Hi", chars "a@b.com", chars "hello"⟩]
          ([] ++ ⟨chars "Hi", chars "a@b.com", chars "hello"⟩ :: []) =
        count_new [get_email_hash ⟨chars "Hi", chars "a@b.com", chars "hello"⟩] ([] ++ [])) ∧
    (get_email_hash ⟨chars "Hi", chars "a@b.com", chars "hello"⟩ ∉ ([] : List Str) ∧
      dedupStep (([] : List Str), 0) ⟨chars "Hi", chars "a@b.com", chars "hello"⟩ =
        ([get_email_hash ⟨chars "Hi", chars "a@b.com", chars "hello"⟩], 1)) :=
  ⟨⟨by decide,
    (C8_no_double_count [get_email_hash ⟨chars "Hi", chars "a@b.com", chars "hello"⟩]
      0 [] [] ⟨chars "Hi", chars "a@b.com", chars "hello"⟩).1 (by decide)⟩,
   ⟨by decide,
    (C8_no_double_count [] 0 [] [] ⟨chars "Hi", chars "a@b.com", chars "hello"⟩).2
      (by decide)⟩⟩

/-! ### Rotation order (rotating_baseline.py) -/

theorem rotated_head_lt (k : Nat) (hk : k < 11) :
    (sources_order.drop k ++ sources_order.take k).head? = sources_order[k]? := by
  interval_cases k <;> decide

theorem rotated_sources_head (n : Nat) :
    (rotated_sources n).head? = sources_order[n % 11]? := by
  have h11 : sources_order.length = 11 := rfl
  unfold rotated_sources
  rw [h11]
  exact rotated_head_lt _ (Nat.mod_lt _ (by norm_num))

theorem sources_get_inj :
    ∀ a b : Fin 11, sources_order[a.val]? = sources_order[b.val]? → a = b := by
  decide

/-- C6: the effective source order is the fixed 11-entry list rotated left by
the rotation number mod 11, so the source at that index is processed first
(at rotation number 1, the second configured source); the rotation number
grows by exactly one per invocation, and across any 11 consecutive rotations
every configured source appears first exactly once (each position is reached
at least once, and distinct rotations within a window of 11 have distinct
first sources). -/
theorem C6_rotation_fairness (r j : Nat) (hj : j < 11) :
    (rotated_sources r).head? = sources_order[r % 11]? ∧
    (rotated_sources 1).head? = some (SrcType.eml, "opened_emails") ∧
    (∀ st : RBState, (next_rotation st).rotation_number = st.rotation_number + 1) ∧
    (∃ i, i < 11 ∧ (rotated_sources (r + i)).head? = sources_order[j]?) ∧
    (∀ i i', i < 11 → i' < 11 →
      (rotated_sources (r + i)).head? = (rotated_sources (r + i')).head? → i = i') := by
  refine ⟨rotated_sources_head r, by decide, fun st => rfl, ?_, ?_⟩
  · refine ⟨(j + 11 - r % 11) % 11, Nat.mod_lt _ (by norm_num), ?_⟩
    rw [rotated_sources_head]
    have harith : (r + (j + 11 - r % 11) % 11) % 11 = j := by omega
    rw [harith]
  · intro i i' hi hi' heq
    rw [rotated_sources_head, rotated_sources_head] at heq
    have hfin := sources_get_inj ⟨(r + i) % 11, Nat.mod_lt _ (by norm_num)⟩
      ⟨(r + i') % 11, Nat.mod_lt _ (by norm_num)⟩ heq
    have hmod : (r + i) % 11 = (r + i') % 11 := congrArg Fin.val hfin
    omega

/-- Witness for C6_rotation_fairness at rotation 5 and source index 3. -/
theorem C6_rotation_fairness_witness :
    3 < 11 ∧
    ((rotated_sources 5).head? = sources_order[5 % 11]? ∧
     (rotated_sources 1).head? = some (SrcType.eml, "opened_emails") ∧
     (∀ st : RBState, (next_rotation st).rotation_number = st.rotation_number + 1) ∧
     (∃ i, i < 11 ∧ (rotated_sources (5 + i)).head? = sources_order[3]?) ∧
     (∀ i i', i < 11 → i' < 11 →
       (rotated_sources (5 + i)).head? = (rotated_sources (5 + i')).head? → i = i')) :=
  ⟨by decide, C6_rotation_fairness 5 3 (by decide)⟩

/-! ### Folded header lines (parse_email_message) -/

theorem splitOnC_no_sep (sep : Char) (x : Str) (hx : sep ∉ x) :
    splitOnC sep x = [x] := by
  induction x with
  | nil => rfl
  | cons c s ih =>
    have hc : ¬ (c = sep) := fun e => hx (by rw [e]; exact List.mem_cons_self _ _)
    have hs : sep ∉ s := fun m => hx (List.mem_cons_of_mem _ m)
    unfold splitOnC
    rw [if_neg hc, ih hs]
    rfl

theorem splitOnC_append_sep (sep : Char) (x rest : Str) (hx : sep ∉ x) :
    splitOnC sep (x ++ sep :: rest) = x :: splitOnC sep rest := by
  induction x with
  | nil => simp [splitOnC]
  | cons c s ih =>
    have hc : ¬ (c = sep) := fun e => hx (by rw [e]; exact List.mem_cons_self _ _)
    have hs : sep ∉ s := fun m => hx (List.mem_cons_of_mem _ m)
    show splitOnC sep (c :: (s ++ sep :: rest)) = (c :: s) :: splitOnC sep rest
    conv_lhs => rw [splitOnC]
    rw [if_neg hc, ih hs]
    rfl

theorem splitOnC_joinSep (sep : Char) (ls : List Str) (hne : ls ≠ [])
    (hl : ∀ l ∈ ls, sep ∉ l) : splitOnC sep (joinSep sep ls) = ls := by
  induction ls with
  | nil => exact absurd rfl hne
  | cons x rest ih =>
    cases rest with
    | nil =>
      show splitOnC sep (joinSep sep [x]) = [x]
      unfold joinSep
      exact splitOnC_no_sep sep x (hl x (List.mem_cons_self _ _))
    | cons y rest' =>
      show splitOnC sep (x ++ sep :: joinSep sep (y :: rest')) = x :: (y :: rest')
      rw [splitOnC_append_sep sep x _ (hl x (List.mem_cons_self _ _))]
      rw [ih (by simp) (fun l hm => hl l (List.mem_cons_of_mem _ hm))]

theorem joinSep_eq_nil (sep : Char) (ls : List Str) (h : joinSep sep ls = []) :
    ls = [] ∨ ls = [[]] := by
  match ls with
  | [] => exact Or.inl rfl
  | [x] =>
    right
    unfold joinSep at h
    rw [h]
  | x :: y :: rest =>
    unfold joinSep at h
    rcases List.append_eq_nil.mp h with ⟨-, h2⟩
    cases h2

theorem pstate_ite_in_body (c : Prop) [Decidable c] (a b : PState)
    (ha : a.in_body = false) (hb : b.in_body = false) :
    (if c then a else b).in_body = false := by
  split
  · exact ha
  · exact hb

theorem parseLine_in_body_false (st : PState) (l : Str) (h : st.in_body = false)
    (hl : pyStrip l ≠ []) : (parseLine st l).in_body = false := by
  unfold parseLine
  rw [if_neg (by rw [h]; exact Bool.false_ne_true)]
  rw [if_neg hl]
  by_cases hh : (':' : Char) ∈ l ∧ l.head? ≠ some ' ' ∧ l.head? ≠ some '\t'
  · rw [if_pos hh]
    exact pstate_ite_in_body _ _ _ h h
  · rw [if_neg hh]
    exact h

theorem parse_fold_in_body_false (pre : List Str) (st : PState) (h : st.in_body = false)
    (hp : ∀ l ∈ pre, pyStrip l ≠ []) : (pre.foldl parseLine st).in_body = false := by
  induction pre generalizing st with
  | nil => exact h
  | cons x rest ih =>
    exact ih _ (parseLine_in_body_false st x h (hp x (List.mem_cons_self _ _)))
      (fun l hm => hp l (List.mem_cons_of_mem _ hm))

theorem parseLine_folded (st : PState) (l : Str) (hb : st.in_body = false)
    (hws : l.head? = some ' ' ∨ l.head? = some '\t') (hnb : pyStrip l ≠ []) :
    parseLine st l = st := by
  unfold parseLine
  rw [if_neg (by rw [hb]; exact Bool.false_ne_true)]
  rw [if_neg hnb]
  rw [if_neg ?_]
  rintro ⟨-, h2, h3⟩
  cases hws with
  | inl hsp => exact h2 hsp
  | inr htab => exact h3 htab

/-- C10: `parse_email_message` silently discards folded continuation header
lines.  Inserting, anywhere before the first blank line, a line that starts
with a space or tab (and is not itself blank) leaves the parsed record
unchanged: the result depends only on the single-line headers and on the
lines after the first blank line. -/
theorem C10_folded_headers (pre post : List Str) (fold : Str)
    (hws : fold.head? = some ' ' ∨ fold.head? = some '\t')
    (hnb : pyStrip fold ≠ [])
    (hpre : ∀ l ∈ pre, pyStrip l ≠ [])
    (hnl : ∀ l ∈ pre ++ fold :: post, ('\n' : Char) ∉ l)
    (hne : joinSep '\n' (pre ++ post) ≠ []) :
    parse_email_message (joinSep '\n' (pre ++ fold :: post)) =
      parse_email_message (joinSep '\n' (pre ++ post)) := by
  have hfne : fold ≠ [] := fun e => hnb (by rw [e]; rfl)
  have hlhs_ne : joinSep '\n' (pre ++ fold :: post) ≠ [] := by
    intro h
    rcases joinSep_eq_nil _ _ h with h1 | h1
    · exact absurd h1 (by simp)
    · have hmem : fold ∈ pre ++ fold :: post := by simp
      rw [h1] at hmem
      simp at hmem
      exact hfne hmem
  have hrne : pre ++ post ≠ [] := fun e => hne (by rw [e]; rfl)
  have hnl' : ∀ l ∈ pre ++ post, ('\n' : Char) ∉ l := by
    intro l hm
    refine hnl l ?_
    simp at hm ⊢
    tauto
  unfold parse_email_message
  rw [if_neg hlhs_ne, if_neg hne]
  rw [splitOnC_joinSep _ _ (by simp) hnl, splitOnC_joinSep _ _ hrne hnl']
  have hst : (pre ++ fold :: post).foldl parseLine ⟨[], [], false⟩
      = (pre ++ post).foldl parseLine ⟨[], [], false⟩ := by
    rw [List.foldl_append, List.foldl_append, List.foldl_cons]
    rw [parseLine_folded _ _ (parse_fold_in_body_false pre _ rfl hpre) hws hnb]
  rw [hst]

/-- Witness for C10_folded_headers on a concrete message with one folded
header line. -/
theorem C10_folded_headers_witness :
    ((chars " folded value").head? = some ' ' ∨ (chars " folded value").head? = some '\t') ∧
    pyStrip (chars " folded value") ≠ [] ∧
    (∀ l ∈ [chars "From: a@b.c", chars "Subject: hi"], pyStrip l ≠ []) ∧
    (∀ l ∈ [chars "From: a@b.c", chars "Subject: hi"] ++ chars " folded value" ::
        [chars "", chars "body line"], ('\n' : Char) ∉ l) ∧
    joinSep '\n' ([chars "From: a@b.c", chars "Subject: hi"] ++ [chars "", chars "body line"]) ≠ [] ∧
    parse_email_message (joinSep '\n' ([chars "From: a@b.c", chars "Subject: hi"] ++
        chars " folded value" :: [chars "", chars "body line"])) =
      parse_email_message (joinSep '\n' ([chars "From: a@b.c", chars "Subject: hi"] ++
        [chars "", chars "body line"])) :=
  ⟨by decide, by decide,
   by intro l hm; fin_cases hm <;> decide,
   by intro l hm; fin_cases hm <;> decide,
   by decide,
   C10_folded_headers [chars "From: a@b.c", chars "Subject: hi"] [chars "", chars "body line"]
     (chars " folded value") (by decide) (by decide)
     (by intro l hm; fin_cases hm <;> decide)
     (by intro l hm; fin_cases hm <;> decide)
     (by decide)⟩
